import Mathlib

/-!
Verification development for the Carolina wholesale evaluator
(src/streamlit_app.py): a shallow embedding of the program's core logic —
data loading (load_data), catalogue construction (build_dropdowns), VIN
decoding (decode_vin), engine fuzzy matching (difflib.get_close_matches),
value prediction (predict_value) and the comparables/price-history section —
together with theorems settling the specification's claims about it.

Machine reals of the source are modelled by ℝ, currency amounts by ℚ,
calendar dates by day numbers in ℤ, and pandas string columns by String
(Option String before fillna).
-/

namespace CarolinaEval

/-! ## Data model

A vehicle-sales row as read from the spreadsheet, before load_data's
fillna: the six categorical columns Make/Model/Series/Engine Code/Roof/
Interior may be null. -/

structure RawRecord where
  Year : ℤ
  Make : Option String
  Model : Option String
  Series : Option String
  EngineCode : Option String
  Roof : Option String
  Interior : Option String
  Region : Option String
  Color : Option String
  Grade : ℚ
  Mileage : ℤ
  Drivable : String
  SoldDate : ℤ
  SalePrice : ℚ
deriving DecidableEq

/-- A row after load_data: the six categorical columns are non-null
strings (nulls replaced by the empty string, `df[c].fillna("")`).
Region and Color are not filled there, so they stay optional. -/
structure VehicleRecord where
  Year : ℤ
  Make : String
  Model : String
  Series : String
  EngineCode : String
  Roof : String
  Interior : String
  Region : Option String
  Color : Option String
  Grade : ℚ
  Mileage : ℤ
  Drivable : String
  SoldDate : ℤ
  SalePrice : ℚ
deriving DecidableEq

/-- load_data's null handling: for each of the six categorical columns,
nulls become the empty string; every row is kept. (The sale_month and age
derived columns play no part in the claims below and are omitted.) -/
def load_data (raw : List RawRecord) : List VehicleRecord :=
  raw.map (fun r =>
    { Year := r.Year
      Make := r.Make.getD ""
      Model := r.Model.getD ""
      Series := r.Series.getD ""
      EngineCode := r.EngineCode.getD ""
      Roof := r.Roof.getD ""
      Interior := r.Interior.getD ""
      Region := r.Region
      Color := r.Color
      Grade := r.Grade
      Mileage := r.Mileage
      Drivable := r.Drivable
      SoldDate := r.SoldDate
      SalePrice := r.SalePrice })

/-! ## sorted-unique

Python's `sorted(df[...].unique())` returns the distinct values in ascending
order. `sortDedup` computes the same list by inserting each value into a
strictly increasing list, skipping duplicates. -/

def insUniq {α : Type} [LinearOrder α] (x : α) : List α → List α
  | [] => [x]
  | y :: ys => if x < y then x :: y :: ys else if x = y then y :: ys else y :: insUniq x ys

def sortDedup {α : Type} [LinearOrder α] (l : List α) : List α :=
  l.foldr insUniq []

theorem mem_insUniq {α : Type} [LinearOrder α] (a x : α) (l : List α) :
    a ∈ insUniq x l ↔ a = x ∨ a ∈ l := by
  induction l with
  | nil => simp [insUniq]
  | cons y ys ih =>
    by_cases hxy : x < y
    · simp [insUniq, hxy]
    · by_cases hxe : x = y
      · subst hxe
        simp [insUniq, lt_irrefl]
      · simp [insUniq, hxy, hxe, ih]
        tauto

theorem sorted_insUniq {α : Type} [LinearOrder α] (x : α) (l : List α)
    (h : List.Sorted (· < ·) l) : List.Sorted (· < ·) (insUniq x l) := by
  induction l with
  | nil => simp [insUniq]
  | cons y ys ih =>
    rw [List.sorted_cons] at h
    by_cases hxy : x < y
    · rw [insUniq, if_pos hxy, List.sorted_cons]
      refine ⟨?_, by rw [List.sorted_cons]; exact h⟩
      intro b hb
      rcases List.mem_cons.mp hb with rfl | hb
      · exact hxy
      · exact lt_trans hxy (h.1 b hb)
    · by_cases hxe : x = y
      · rw [insUniq, if_neg hxy, if_pos hxe, List.sorted_cons]
        exact h
      · rw [insUniq, if_neg hxy, if_neg hxe, List.sorted_cons]
        refine ⟨?_, ih h.2⟩
        intro b hb
        rcases (mem_insUniq b x ys).mp hb with rfl | hb
        · exact lt_of_le_of_ne (le_of_not_lt hxy) (Ne.symm hxe)
        · exact h.1 b hb

theorem mem_sortDedup {α : Type} [LinearOrder α] (a : α) (l : List α) :
    a ∈ sortDedup l ↔ a ∈ l := by
  induction l with
  | nil => simp [sortDedup]
  | cons x xs ih =>
    show a ∈ insUniq x (sortDedup xs) ↔ _
    rw [mem_insUniq, ih]
    simp

theorem sorted_sortDedup {α : Type} [LinearOrder α] (l : List α) :
    List.Sorted (· < ·) (sortDedup l) := by
  induction l with
  | nil => simp [sortDedup]
  | cons x xs ih => exact sorted_insUniq x (sortDedup xs) ih

/-! ## Catalogue construction (build_dropdowns)

Each component mirrors one comprehension of build_dropdowns.  The engines,
roofs and interiors dictionaries of the source are keyed by the
(Make, Model, Series) triples backed by at least one record; for a key
absent from the dictionary the source reads the options with
`.get((make, model, series), [])`, which returns `[]` — exactly what the
uniform filter formula below returns, since no record matches such a
triple.  So each dictionary-with-default is embedded as a total function
of the triple. -/

def makes (df : List VehicleRecord) : List String :=
  sortDedup (df.map (fun r => r.Make))

def modelsFor (df : List VehicleRecord) (mk : String) : List String :=
  sortDedup ((df.filter (fun r => r.Make == mk)).map (fun r => r.Model))

def seriesFor (df : List VehicleRecord) (mk mo : String) : List String :=
  sortDedup ((df.filter (fun r => r.Make == mk && r.Model == mo)).map (fun r => r.Series))

def enginesFor (df : List VehicleRecord) (mk mo ser : String) : List String :=
  sortDedup ((df.filter (fun r => r.Make == mk && r.Model == mo && r.Series == ser)).map
    (fun r => r.EngineCode))

def roofsFor (df : List VehicleRecord) (mk mo ser : String) : List String :=
  sortDedup ((df.filter (fun r => r.Make == mk && r.Model == mo && r.Series == ser)).map
    (fun r => r.Roof))

def interiorsFor (df : List VehicleRecord) (mk mo ser : String) : List String :=
  sortDedup ((df.filter (fun r => r.Make == mk && r.Model == mo && r.Series == ser)).map
    (fun r => r.Interior))

theorem mem_makes (df : List VehicleRecord) (a : String) :
    a ∈ makes df ↔ ∃ r ∈ df, r.Make = a := by
  rw [makes, mem_sortDedup]
  simp

theorem mem_modelsFor (df : List VehicleRecord) (mk a : String) :
    a ∈ modelsFor df mk ↔ ∃ r ∈ df, r.Make = mk ∧ r.Model = a := by
  rw [modelsFor, mem_sortDedup]
  simp [List.mem_filter, and_assoc]

theorem mem_seriesFor (df : List VehicleRecord) (mk mo a : String) :
    a ∈ seriesFor df mk mo ↔ ∃ r ∈ df, r.Make = mk ∧ r.Model = mo ∧ r.Series = a := by
  rw [seriesFor, mem_sortDedup]
  simp [List.mem_filter, and_assoc]

theorem mem_enginesFor (df : List VehicleRecord) (mk mo ser a : String) :
    a ∈ enginesFor df mk mo ser ↔
      ∃ r ∈ df, r.Make = mk ∧ r.Model = mo ∧ r.Series = ser ∧ r.EngineCode = a := by
  rw [enginesFor, mem_sortDedup]
  simp [List.mem_filter, and_assoc]

theorem mem_roofsFor (df : List VehicleRecord) (mk mo ser a : String) :
    a ∈ roofsFor df mk mo ser ↔
      ∃ r ∈ df, r.Make = mk ∧ r.Model = mo ∧ r.Series = ser ∧ r.Roof = a := by
  rw [roofsFor, mem_sortDedup]
  simp [List.mem_filter, and_assoc]

theorem mem_interiorsFor (df : List VehicleRecord) (mk mo ser a : String) :
    a ∈ interiorsFor df mk mo ser ↔
      ∃ r ∈ df, r.Make = mk ∧ r.Model = mo ∧ r.Series = ser ∧ r.Interior = a := by
  rw [interiorsFor, mem_sortDedup]
  simp [List.mem_filter, and_assoc]

/-! ## Claim C6: the catalogue index is exact and sorted -/

/-- C6: for every record set, `makes` is exactly the ascending-sorted set of
distinct Make values present, and for every key the Models, Series, Engine
Code, Roof and Interior option lists are exactly the ascending-sorted
distinct values among the records matching that key.  (Build is a plain
function of the records, so determinism and purity are inherent in the
embedding; strict sortedness implies distinctness.) -/
theorem c6_catalogue_exact_sorted (df : List VehicleRecord) :
    (List.Sorted (· < ·) (makes df) ∧ ∀ a, a ∈ makes df ↔ ∃ r ∈ df, r.Make = a)
    ∧ (∀ mk, List.Sorted (· < ·) (modelsFor df mk) ∧
        ∀ a, a ∈ modelsFor df mk ↔ ∃ r ∈ df, r.Make = mk ∧ r.Model = a)
    ∧ (∀ mk mo, List.Sorted (· < ·) (seriesFor df mk mo) ∧
        ∀ a, a ∈ seriesFor df mk mo ↔ ∃ r ∈ df, r.Make = mk ∧ r.Model = mo ∧ r.Series = a)
    ∧ (∀ mk mo ser, List.Sorted (· < ·) (enginesFor df mk mo ser) ∧
        ∀ a, a ∈ enginesFor df mk mo ser ↔
          ∃ r ∈ df, r.Make = mk ∧ r.Model = mo ∧ r.Series = ser ∧ r.EngineCode = a)
    ∧ (∀ mk mo ser, List.Sorted (· < ·) (roofsFor df mk mo ser) ∧
        ∀ a, a ∈ roofsFor df mk mo ser ↔
          ∃ r ∈ df, r.Make = mk ∧ r.Model = mo ∧ r.Series = ser ∧ r.Roof = a)
    ∧ (∀ mk mo ser, List.Sorted (· < ·) (interiorsFor df mk mo ser) ∧
        ∀ a, a ∈ interiorsFor df mk mo ser ↔
          ∃ r ∈ df, r.Make = mk ∧ r.Model = mo ∧ r.Series = ser ∧ r.Interior = a) :=
  ⟨⟨sorted_sortDedup _, mem_makes df⟩,
   fun mk => ⟨sorted_sortDedup _, mem_modelsFor df mk⟩,
   fun mk mo => ⟨sorted_sortDedup _, mem_seriesFor df mk mo⟩,
   fun mk mo ser => ⟨sorted_sortDedup _, mem_enginesFor df mk mo ser⟩,
   fun mk mo ser => ⟨sorted_sortDedup _, mem_roofsFor df mk mo ser⟩,
   fun mk mo ser => ⟨sorted_sortDedup _, mem_interiorsFor df mk mo ser⟩⟩

/-! ## Claim C10: keys backed by a record have non-empty option lists -/

/-- C10: after load_data (which replaces null categoricals by the empty
string rather than dropping rows), every (Make, Model, Series) key present
in the built series map — i.e. backed by at least one record — has
non-empty Engine Code, Roof and Interior option lists; consequently the
dictionary lookup returns an empty list only for absent keys. -/
theorem c10_present_key_nonempty (raw : List RawRecord) (mk mo ser : String)
    (h : ser ∈ seriesFor (load_data raw) mk mo) :
    enginesFor (load_data raw) mk mo ser ≠ [] ∧
    roofsFor (load_data raw) mk mo ser ≠ [] ∧
    interiorsFor (load_data raw) mk mo ser ≠ [] := by
  obtain ⟨r, hr, hmk, hmo, hser⟩ := (mem_seriesFor (load_data raw) mk mo ser).mp h
  exact ⟨List.ne_nil_of_mem ((mem_enginesFor _ mk mo ser r.EngineCode).mpr
            ⟨r, hr, hmk, hmo, hser, rfl⟩),
         List.ne_nil_of_mem ((mem_roofsFor _ mk mo ser r.Roof).mpr
            ⟨r, hr, hmk, hmo, hser, rfl⟩),
         List.ne_nil_of_mem ((mem_interiorsFor _ mk mo ser r.Interior).mpr
            ⟨r, hr, hmk, hmo, hser, rfl⟩)⟩

/-- A one-row raw data set whose engine, roof and interior cells are null:
load_data turns the nulls into empty strings, so the ("A","B","D") key is
backed by the row. -/
def rawNullRow : RawRecord :=
  { Year := 2020, Make := some "A", Model := some "B", Series := some "D"
    EngineCode := none, Roof := none, Interior := none
    Region := none, Color := none, Grade := 3, Mileage := 100
    Drivable := "Yes", SoldDate := 0, SalePrice := 1000 }

/-- C10 witness: the hypothesis and conclusion of
c10_present_key_nonempty hold concretely on the one-row data set. -/
theorem c10_present_key_nonempty_witness :
    "D" ∈ seriesFor (load_data [rawNullRow]) "A" "B" ∧
    (enginesFor (load_data [rawNullRow]) "A" "B" "D" ≠ [] ∧
     roofsFor (load_data [rawNullRow]) "A" "B" "D" ≠ [] ∧
     interiorsFor (load_data [rawNullRow]) "A" "B" "D" ≠ []) :=
  ⟨by decide, c10_present_key_nonempty [rawNullRow] "A" "B" "D" (by decide)⟩

/-! ## Claim C1: no fallback widening in the option lookups

The source reads the Engine Code options with
`_engines.get((make, model, series), [])` (and likewise Roof and Interior)
and never retries with a (Make, Model) key. -/

/-- Modelled from the spec: the (Make, Model)-keyed Engine Code option set —
the "widened" lookup the fallback-widening policy speaks of.  No such
lookup exists in the source, which keys engines by full triples only. -/
def enginesWidenedSpec (df : List VehicleRecord) (mk mo : String) : List String :=
  sortDedup ((df.filter (fun r => r.Make == mk && r.Model == mo)).map
    (fun r => r.EngineCode))

/-- Modelled from the spec: the fallback-widening engine lookup — retry
keyed by (Make, Model) when the (Make, Model, Series) result is empty. -/
def engineLookupWidenedSpec (df : List VehicleRecord) (mk mo ser : String) : List String :=
  if enginesFor df mk mo ser = [] then enginesWidenedSpec df mk mo
  else enginesFor df mk mo ser

/-- A one-row record set: make "A", model "B", series "D", engine "E". -/
def dfSingleABD : List VehicleRecord :=
  [{ Year := 2020, Make := "A", Model := "B", Series := "D"
     EngineCode := "E", Roof := "R", Interior := "I"
     Region := none, Color := none, Grade := 3, Mileage := 100
     Drivable := "Yes", SoldDate := 0, SalePrice := 1000 }]

/-- C1 counterexample: looking up the triple ("A","B","C") on dfSingleABD,
the (Make,Model,Series) option list is empty and the (Make,Model) set is
the non-empty ["E"], yet the program's lookup returns [] — not the widened
set the claim requires. -/
theorem c1_no_widening_counterexample :
    enginesFor dfSingleABD "A" "B" "C" = [] ∧
    enginesWidenedSpec dfSingleABD "A" "B" = ["E"] ∧
    engineLookupWidenedSpec dfSingleABD "A" "B" "C" = ["E"] ∧
    enginesFor dfSingleABD "A" "B" "C" ≠ engineLookupWidenedSpec dfSingleABD "A" "B" "C" := by
  refine ⟨by decide, by decide, by decide, by decide⟩

/-- C1 (amended): the Engine Code / Roof / Interior option lookups are keyed
by (Make, Model, Series) only; the result is empty exactly when no record
matches the triple, and that empty result is surfaced as-is — no retry
keyed by (Make, Model) is performed, and no default is invented. -/
theorem c1_lookup_empty_iff_no_triple_record (df : List VehicleRecord) (mk mo ser : String) :
    (enginesFor df mk mo ser = [] ↔
      ∀ r ∈ df, ¬(r.Make = mk ∧ r.Model = mo ∧ r.Series = ser))
    ∧ (roofsFor df mk mo ser = [] ↔
      ∀ r ∈ df, ¬(r.Make = mk ∧ r.Model = mo ∧ r.Series = ser))
    ∧ (interiorsFor df mk mo ser = [] ↔
      ∀ r ∈ df, ¬(r.Make = mk ∧ r.Model = mo ∧ r.Series = ser)) := by
  refine ⟨?_, ?_, ?_⟩
  · rw [List.eq_nil_iff_forall_not_mem]
    constructor
    · intro h r hr hTriple
      exact h r.EngineCode ((mem_enginesFor df mk mo ser r.EngineCode).mpr
        ⟨r, hr, hTriple.1, hTriple.2.1, hTriple.2.2, rfl⟩)
    · intro h a ha
      obtain ⟨r, hr, h1, h2, h3, _⟩ := (mem_enginesFor df mk mo ser a).mp ha
      exact h r hr ⟨h1, h2, h3⟩
  · rw [List.eq_nil_iff_forall_not_mem]
    constructor
    · intro h r hr hTriple
      exact h r.Roof ((mem_roofsFor df mk mo ser r.Roof).mpr
        ⟨r, hr, hTriple.1, hTriple.2.1, hTriple.2.2, rfl⟩)
    · intro h a ha
      obtain ⟨r, hr, h1, h2, h3, _⟩ := (mem_roofsFor df mk mo ser a).mp ha
      exact h r hr ⟨h1, h2, h3⟩
  · rw [List.eq_nil_iff_forall_not_mem]
    constructor
    · intro h r hr hTriple
      exact h r.Interior ((mem_interiorsFor df mk mo ser r.Interior).mpr
        ⟨r, hr, hTriple.1, hTriple.2.1, hTriple.2.2, rfl⟩)
    · intro h a ha
      obtain ⟨r, hr, h1, h2, h3, _⟩ := (mem_interiorsFor df mk mo ser a).mp ha
      exact h r hr ⟨h1, h2, h3⟩

/-! ## Comparables filter and price-history section

The estimate-time history block: cutoff = now − 120 days, year window
[year−2, year+2] inclusive, exact match on make/model/series; when the
filtered subset is non-empty, an Altair line chart of the raw
("Sold Date", "Sale Price") pairs and a table of the subset sorted by
Sold Date descending truncated to 10 rows; otherwise the
"No recent transactions found." message. -/

def compPred (now yr : ℤ) (mk mo ser : String) (r : VehicleRecord) : Bool :=
  decide (now - 120 ≤ r.SoldDate) && decide (yr - 2 ≤ r.Year) && decide (r.Year ≤ yr + 2) &&
    (r.Make == mk) && (r.Model == mo) && (r.Series == ser)

def compFilter (df : List VehicleRecord) (now yr : ℤ) (mk mo ser : String) :
    List VehicleRecord :=
  df.filter (compPred now yr mk mo ser)

/-- The chart encodes each row of the subset as its own
(Sold Date, Sale Price) point; no aggregate is specified in the encoding. -/
def chartPoints (subset : List VehicleRecord) : List (ℤ × ℚ) :=
  subset.map (fun r => (r.SoldDate, r.SalePrice))

/-- Sold-Date-descending comparison used for the transactions table. -/
def dateGE (a b : VehicleRecord) : Prop := b.SoldDate ≤ a.SoldDate

instance : DecidableRel dateGE := fun a b => Int.decLe b.SoldDate a.SoldDate

instance : IsTotal VehicleRecord dateGE := ⟨fun a b => le_total b.SoldDate a.SoldDate⟩

instance : IsTrans VehicleRecord dateGE := ⟨fun _ _ _ h1 h2 => le_trans h2 h1⟩

def sortByDateDesc (l : List VehicleRecord) : List VehicleRecord :=
  List.insertionSort dateGE l

/-- subset.sort_values("Sold Date", ascending=False).head(10) -/
def lastTen (subset : List VehicleRecord) : List VehicleRecord :=
  (sortByDateDesc subset).take 10

inductive HistoryRender
  | noData
  | chartAndTable (points : List (ℤ × ℚ)) (table : List VehicleRecord)
deriving DecidableEq

/-- The history block: guards on the subset being non-empty; empty subsets
render only the no-data message, with no aggregate computed. -/
def renderHistory (df : List VehicleRecord) (now yr : ℤ) (mk mo ser : String) :
    HistoryRender :=
  let subset := compFilter df now yr mk mo ser
  if subset.isEmpty then HistoryRender.noData
  else HistoryRender.chartAndTable (chartPoints subset) (lastTen subset)

/-! ## Claim C2: the chart does not aggregate by day -/

/-- Modelled from the spec: the median of a list of prices — sort, take the
middle element (odd length) or the mean of the two middle elements (even
length). -/
def medianSpec (l : List ℚ) : ℚ :=
  let s := List.insertionSort (· ≤ ·) l
  if s.length = 0 then 0
  else if s.length % 2 = 1 then s.getD (s.length / 2) 0
  else (s.getD (s.length / 2 - 1) 0 + s.getD (s.length / 2) 0) / 2

/-- Modelled from the spec: group the subset by calendar day, take the
median Sale Price per day, order by date ascending. -/
def timeSeriesSpec (subset : List VehicleRecord) : List (ℤ × ℚ) :=
  (sortDedup (subset.map (fun r => r.SoldDate))).map
    (fun d => (d, medianSpec ((subset.filter (fun r => r.SoldDate == d)).map
      (fun r => r.SalePrice))))

/-- Three HONDA CIVIC EX sales on day 100 priced 18000 / 19000 / 20000,
all inside the lookback window for now = 100, year = 2020. -/
def dfCivic : List VehicleRecord :=
  [{ Year := 2020, Make := "HONDA", Model := "CIVIC", Series := "EX"
     EngineCode := "2.0L", Roof := "NONE", Interior := "CLOTH"
     Region := none, Color := none, Grade := 3, Mileage := 100
     Drivable := "Yes", SoldDate := 100, SalePrice := 18000 },
   { Year := 2020, Make := "HONDA", Model := "CIVIC", Series := "EX"
     EngineCode := "2.0L", Roof := "NONE", Interior := "CLOTH"
     Region := none, Color := none, Grade := 3, Mileage := 100
     Drivable := "Yes", SoldDate := 100, SalePrice := 19000 },
   { Year := 2020, Make := "HONDA", Model := "CIVIC", Series := "EX"
     EngineCode := "2.0L", Roof := "NONE", Interior := "CLOTH"
     Region := none, Color := none, Grade := 3, Mileage := 100
     Drivable := "Yes", SoldDate := 100, SalePrice := 20000 }]

/-- C2 counterexample: for the three same-day matching records priced
18000/19000/20000, the chart output is the three raw points, not the
single per-day median point [(100, 19000)] the claim describes. -/
theorem c2_no_median_counterexample :
    chartPoints (compFilter dfCivic 100 2020 "HONDA" "CIVIC" "EX") =
      [(100, 18000), (100, 19000), (100, 20000)] ∧
    timeSeriesSpec (compFilter dfCivic 100 2020 "HONDA" "CIVIC" "EX") = [(100, 19000)] ∧
    chartPoints (compFilter dfCivic 100 2020 "HONDA" "CIVIC" "EX") ≠
      timeSeriesSpec (compFilter dfCivic 100 2020 "HONDA" "CIVIC" "EX") := by
  refine ⟨by decide, by decide, by decide⟩

/-- C2 (amended): the time-series output plots one (Sold Date, Sale Price)
point per matching record, in record order, with no per-day grouping and
no median aggregation; its points are exactly the (date, price) pairs of
the records satisfying the comparables filter. -/
theorem c2_chart_is_raw_points (df : List VehicleRecord) (now yr : ℤ) (mk mo ser : String) :
    (chartPoints (compFilter df now yr mk mo ser)).length =
      (compFilter df now yr mk mo ser).length
    ∧ ∀ p, p ∈ chartPoints (compFilter df now yr mk mo ser) ↔
        ∃ r ∈ df, (now - 120 ≤ r.SoldDate ∧ yr - 2 ≤ r.Year ∧ r.Year ≤ yr + 2 ∧
          r.Make = mk ∧ r.Model = mo ∧ r.Series = ser) ∧ p = (r.SoldDate, r.SalePrice) := by
  constructor
  · exact List.length_map _ _
  · intro p
    rw [chartPoints, List.mem_map]
    constructor
    · rintro ⟨r, hr, rfl⟩
      rw [compFilter, List.mem_filter] at hr
      obtain ⟨hrdf, hp⟩ := hr
      rw [compPred] at hp
      simp only [Bool.and_eq_true, decide_eq_true_eq, beq_iff_eq] at hp
      exact ⟨r, hrdf, ⟨hp.1.1.1.1.1, hp.1.1.1.1.2, hp.1.1.1.2, hp.1.1.2, hp.1.2, hp.2⟩, rfl⟩
    · rintro ⟨r, hrdf, hcond, rfl⟩
      refine ⟨r, ?_, rfl⟩
      rw [compFilter, List.mem_filter, compPred]
      simp only [Bool.and_eq_true, decide_eq_true_eq, beq_iff_eq]
      exact ⟨hrdf, ⟨⟨⟨⟨⟨hcond.1, hcond.2.1⟩, hcond.2.2.1⟩, hcond.2.2.2.1⟩,
        hcond.2.2.2.2.1⟩, hcond.2.2.2.2.2⟩⟩

/-! ## Claim C7: recent transactions and the empty case -/

/-- C7: the transactions table is the matching records sorted by Sold Date
descending, truncated to 10 rows; on an empty filtered set both outputs
are empty and the no-data message is rendered instead of any aggregate. -/
theorem c7_recent_transactions (df : List VehicleRecord) (now yr : ℤ) (mk mo ser : String) :
    (compFilter df now yr mk mo ser = [] →
      renderHistory df now yr mk mo ser = HistoryRender.noData ∧
      chartPoints (compFilter df now yr mk mo ser) = [] ∧
      lastTen (compFilter df now yr mk mo ser) = [])
    ∧ (compFilter df now yr mk mo ser ≠ [] →
      renderHistory df now yr mk mo ser =
        HistoryRender.chartAndTable (chartPoints (compFilter df now yr mk mo ser))
          (lastTen (compFilter df now yr mk mo ser)))
    ∧ List.Perm (sortByDateDesc (compFilter df now yr mk mo ser))
        (compFilter df now yr mk mo ser)
    ∧ List.Pairwise dateGE (sortByDateDesc (compFilter df now yr mk mo ser))
    ∧ lastTen (compFilter df now yr mk mo ser) =
        (sortByDateDesc (compFilter df now yr mk mo ser)).take 10
    ∧ (lastTen (compFilter df now yr mk mo ser)).length ≤ 10 := by
  refine ⟨?_, ?_, ?_, ?_, rfl, ?_⟩
  · intro h
    rw [renderHistory]
    simp only [h]
    exact ⟨rfl, rfl, rfl⟩
  · intro h
    rw [renderHistory]
    simp only [List.isEmpty_iff]
    rw [if_neg h]
  · exact List.perm_insertionSort dateGE _
  · exact List.sorted_insertionSort dateGE _
  · rw [lastTen]
    exact le_trans (List.length_take_le 10 _) (le_refl 10)

/-- C7 witness: on the concrete dfCivic set the filtered subset is
non-empty and rendered as chart plus table, and on a mismatched series the
subset is empty and only the no-data message is rendered. -/
theorem c7_recent_transactions_witness :
    renderHistory dfCivic 100 2020 "HONDA" "CIVIC" "LX" = HistoryRender.noData ∧
    renderHistory dfCivic 100 2020 "HONDA" "CIVIC" "EX" =
      HistoryRender.chartAndTable (chartPoints (compFilter dfCivic 100 2020 "HONDA" "CIVIC" "EX"))
        (lastTen (compFilter dfCivic 100 2020 "HONDA" "CIVIC" "EX")) :=
  ⟨((c7_recent_transactions dfCivic 100 2020 "HONDA" "CIVIC" "LX").1 (by decide)).1,
   (c7_recent_transactions dfCivic 100 2020 "HONDA" "CIVIC" "EX").2.1 (by decide)⟩

/-! ## VIN decode (decode_vin) and the use_vin guard

The network call is embedded as a value of VinResponse: the service either
fails (network error / timeout / a body without the "Results"[0] shape —
all of which raise inside the try and are caught by the bare except) or
yields a first Results element whose relevant fields may each be missing.
decode_vin returns none exactly where the source returns the empty dict. -/

inductive VinResponse
  | networkError
  | timeout
  | malformed
  | ok (modelYear make model trim disp engMod : Option String)

structure DecodedVin where
  Year : ℤ
  Make : String
  Model : String
  Series : String
  Disp : String
  EngMod : String
deriving DecidableEq

def isSpaceChar (c : Char) : Bool :=
  c == ' ' || c == '\t' || c == '\n' || c == '\r'

/-- Surrounding whitespace removed, as Python int() strips it. -/
def trimChars (l : List Char) : List Char :=
  ((l.dropWhile isSpaceChar).reverse.dropWhile isSpaceChar).reverse

def digitsToInt (l : List Char) : ℤ :=
  l.foldl (fun acc c => 10 * acc + ((c.toNat : ℤ) - 48)) 0

/-- Python int(s) on a decimal string (optionally signed, surrounding
whitespace ignored); none when int() would raise ValueError. -/
def parseIntPy (s : String) : Option ℤ :=
  let t := trimChars s.data
  if t ≠ [] ∧ t.all (fun c => c.isDigit) then
    some (digitsToInt t)
  else if t.head? = some '-' ∧ t.tail ≠ [] ∧ t.tail.all (fun c => c.isDigit) then
    some (-(digitsToInt t.tail))
  else none

/-- decode_vin: Year := int(ModelYear or 0) — a missing or empty ModelYear
counts as 0, a non-numeric one raises and the except returns the empty
dict (none); Make/Model/Trim are upper-cased with "" defaults; the two
engine strings default to "". -/
def decode_vin (resp : VinResponse) : Option DecodedVin :=
  match resp with
  | VinResponse.networkError => none
  | VinResponse.timeout => none
  | VinResponse.malformed => none
  | VinResponse.ok my mk md tr dp em =>
    let yraw := my.getD ""
    match (if yraw = "" then some 0 else parseIntPy yraw) with
    | none => none
    | some y =>
      some { Year := y, Make := (mk.getD "").toUpper, Model := (md.getD "").toUpper
             Series := (tr.getD "").toUpper, Disp := dp.getD "", EngMod := em.getD "" }

/-- The guard at the use site: decoded.get("Year", 0) > 0. -/
def use_vin (d : Option DecodedVin) : Bool :=
  match d with
  | none => false
  | some v => decide (0 < v.Year)

/-! ## Claim C4: every failure is a failure, Year 0 is never success -/

/-- C4: decode_vin is a total function of the service behaviour (the bare
except turns every raised error into the empty result, never propagating
an exception); the VIN path is taken only when the decode produced a
result with Year > 0; network errors, timeouts and malformed bodies
produce the empty result; and a response with ModelYear "0" or missing is
never treated as success. -/
theorem c4_decode_failure_handling (resp : VinResponse) :
    (use_vin (decode_vin resp) = true → ∃ v, decode_vin resp = some v ∧ 0 < v.Year)
    ∧ (decode_vin VinResponse.networkError = none ∧
       decode_vin VinResponse.timeout = none ∧
       decode_vin VinResponse.malformed = none)
    ∧ (∀ mk md tr dp em,
        use_vin (decode_vin (VinResponse.ok (some "0") mk md tr dp em)) = false ∧
        use_vin (decode_vin (VinResponse.ok none mk md tr dp em)) = false) := by
  refine ⟨?_, ⟨rfl, rfl, rfl⟩, ?_⟩
  · intro h
    match hd : decode_vin resp with
    | none => rw [use_vin.eq_def, hd] at h; exact absurd h (by simp)
    | some v =>
      refine ⟨v, rfl, ?_⟩
      rw [use_vin.eq_def, hd] at h
      exact of_decide_eq_true h
  · intro mk md tr dp em
    exact ⟨rfl, rfl⟩

/-- C4 witness: a well-formed response with ModelYear "2015" is decoded
successfully with a positive Year, so the implication of
c4_decode_failure_handling is exercised concretely. -/
theorem c4_decode_failure_handling_witness :
    ∃ v, decode_vin (VinResponse.ok (some "2015") (some "Honda") none none none none) = some v ∧
      0 < v.Year :=
  (c4_decode_failure_handling
    (VinResponse.ok (some "2015") (some "Honda") none none none none)).1 (by decide)

/-! ## Claim C9: year wins from the VIN, make/model/series only default

year = decoded.get("Year") if use_vin else the manual number input;
make/model/series are selectboxes over the catalogue whose default index
points at the decoded value when that value occurs in the option list and
at index 0 otherwise.  The selectbox returns an option of the list (none
for an empty list), so a decoded value outside the catalogue is never the
resolved value. -/

def resolveYear (d : Option DecodedVin) (manualYear : ℤ) : ℤ :=
  match d with
  | some v => if 0 < v.Year then v.Year else manualYear
  | none => manualYear

/-- The default selection of selectbox(label, options, index = options.index(v)
if v in options else 0): the decoded value when present in the options,
the first option otherwise. -/
def selectWithDefault (options : List String) (dec : Option String) : Option String :=
  match dec with
  | some v => if v ∈ options then some v else options.head?
  | none => options.head?

def resolvedMake (df : List VehicleRecord) (d : Option DecodedVin) : Option String :=
  selectWithDefault (makes df) (d.map (fun v => v.Make))

def resolvedModel (df : List VehicleRecord) (d : Option DecodedVin) : Option String :=
  match resolvedMake df d with
  | some mk => selectWithDefault (modelsFor df mk) (d.map (fun v => v.Model))
  | none => none

def resolvedSeries (df : List VehicleRecord) (d : Option DecodedVin) : Option String :=
  match resolvedMake df d, resolvedModel df d with
  | some mk, some mo => selectWithDefault (seriesFor df mk mo) (d.map (fun v => v.Series))
  | _, _ => none

/-- A successful decode of a make absent from the catalogue. -/
def decFerrari : DecodedVin :=
  { Year := 2020, Make := "FERRARI", Model := "F40", Series := "BASE"
    Disp := "", EngMod := "" }

/-- C9 counterexample: the decode succeeded (use_vin holds), yet the
resolved Make is the catalogue's first entry "A" — not the VIN-resolved
"FERRARI", which is absent from the one-make catalogue dfSingleABD. -/
theorem c9_make_not_vin_counterexample :
    use_vin (some decFerrari) = true ∧
    resolvedMake dfSingleABD (some decFerrari) = some "A" ∧
    resolvedMake dfSingleABD (some decFerrari) ≠ some "FERRARI" := by
  refine ⟨by decide, by decide, by decide⟩

/-- C9 (amended): Year equals the VIN-decoded value exactly when a
successful decode (Year > 0) exists and the manual input otherwise;
Make, Model and Series are catalogue selections whose default equals the
VIN-decoded value when that value occurs in the respective option list
(computed from the previously resolved fields) and the first option of
the list otherwise — the VIN value itself is not forced. -/
theorem c9_resolution_defaults (df : List VehicleRecord) (d : Option DecodedVin)
    (manualYear : ℤ) :
    (use_vin d = false → resolveYear d manualYear = manualYear)
    ∧ (∀ v, d = some v → 0 < v.Year → resolveYear d manualYear = v.Year)
    ∧ (∀ v, d = some v → v.Make ∈ makes df → resolvedMake df d = some v.Make)
    ∧ (∀ v, d = some v → v.Make ∉ makes df → resolvedMake df d = (makes df).head?)
    ∧ (d = none → resolvedMake df d = (makes df).head?)
    ∧ (∀ v mk, d = some v → resolvedMake df d = some mk →
        v.Model ∈ modelsFor df mk → resolvedModel df d = some v.Model)
    ∧ (∀ v mk, d = some v → resolvedMake df d = some mk →
        v.Model ∉ modelsFor df mk → resolvedModel df d = (modelsFor df mk).head?)
    ∧ (∀ v mk mo, d = some v → resolvedMake df d = some mk →
        resolvedModel df d = some mo → v.Series ∈ seriesFor df mk mo →
        resolvedSeries df d = some v.Series)
    ∧ (∀ v mk mo, d = some v → resolvedMake df d = some mk →
        resolvedModel df d = some mo → v.Series ∉ seriesFor df mk mo →
        resolvedSeries df d = (seriesFor df mk mo).head?) := by
  refine ⟨?_, ?_, ?_, ?_, ?_, ?_, ?_, ?_, ?_⟩
  · intro h
    match d with
    | none => rfl
    | some v =>
      simp only [use_vin, decide_eq_false_iff_not] at h
      simp [resolveYear, h]
  · rintro v rfl hy
    simp [resolveYear, hy]
  · rintro v rfl hin
    simp [resolvedMake, selectWithDefault, hin]
  · rintro v rfl hout
    simp [resolvedMake, selectWithDefault, hout]
  · rintro rfl
    simp [resolvedMake, selectWithDefault]
  · rintro v mk rfl hmk hin
    simp [resolvedModel, hmk, selectWithDefault, hin]
  · rintro v mk rfl hmk hout
    simp [resolvedModel, hmk, selectWithDefault, hout]
  · rintro v mk mo rfl hmk hmo hin
    simp [resolvedSeries, hmk, hmo, selectWithDefault, hin]
  · rintro v mk mo rfl hmk hmo hout
    simp [resolvedSeries, hmk, hmo, selectWithDefault, hout]

/-- A successful decode matching the dfSingleABD catalogue exactly. -/
def decA : DecodedVin :=
  { Year := 2020, Make := "A", Model := "B", Series := "D", Disp := "", EngMod := "" }

/-- C9 witness: on the concrete catalogue dfSingleABD, a decode of make
"A" (present) resolves to "A", the year resolves from the VIN, and with no
decode the year stays manual. -/
theorem c9_resolution_defaults_witness :
    resolveYear (some decA) 1999 = 2020 ∧
    resolvedMake dfSingleABD (some decA) = some "A" ∧
    resolveYear none 1999 = 1999 :=
  ⟨(c9_resolution_defaults dfSingleABD (some decA) 1999).2.1 decA rfl (by decide),
   (c9_resolution_defaults dfSingleABD (some decA) 1999).2.2.1 decA rfl (by decide),
   (c9_resolution_defaults dfSingleABD none 1999).1 (by decide)⟩

/-! ## difflib: SequenceMatcher ratio and get_close_matches

The engine suggestion uses difflib.get_close_matches(word, elist, n=1) with
the default cutoff 0.6.  For each possibility x the matcher computes
SequenceMatcher(a = x, b = word).ratio() = 2·M / (|a| + |b|), where M is
the total size of the matching blocks: repeatedly take the longest
matching block (earliest in a, then earliest in b) and recurse on the
pieces to its left and right.  The strings here are far shorter than the
autojunk threshold (200), so no element is junk and the two junk-extension
loops of find_longest_match never fire; the dynamic program below is the
remaining loop verbatim.  A candidate is kept when ratio ≥ cutoff (the
quick-ratio prefilters are upper bounds of ratio, so they refuse nothing
ratio accepts), and n = 1 keeps the largest (ratio, string) pair. -/

/-- Whether position i of a and position j of b hold the same character. -/
def charMatchAt (a b : List Char) (i j : ℕ) : Bool :=
  match a.get? i, b.get? j with
  | some x, some y => x == y
  | _, _ => false

/-- One row of find_longest_match's dynamic program: for each j with
b[j] = a[i], blo ≤ j < bhi, the length of the common run ending at (i, j)
is one more than the run ending at (i−1, j−1). -/
def flmRow (a b : List Char) (blo bhi i : ℕ) (j2len : ℕ → ℕ) : ℕ → ℕ :=
  fun j =>
    if blo ≤ j ∧ j < bhi ∧ charMatchAt a b i j = true then
      (if j = 0 then 0 else j2len (j - 1)) + 1
    else 0

/-- The best-block update of one row, scanning j ascending and keeping the
first block of each strictly larger size. -/
def flmBest (row : ℕ → ℕ) (bhi i : ℕ) (best : ℕ × ℕ × ℕ) : ℕ × ℕ × ℕ :=
  (List.range bhi).foldl
    (fun bst j =>
      let k := row j
      if bst.2.2 < k then (i + 1 - k, j + 1 - k, k) else bst)
    best

/-- find_longest_match(alo, ahi, blo, bhi) with no junk: the (i, j, size)
of the longest block a[i : i+size] = b[j : j+size], ties resolved to the
smallest i then the smallest j. -/
def findLongestMatch (a b : List Char) (alo ahi blo bhi : ℕ) : ℕ × ℕ × ℕ :=
  (((List.range ahi).drop alo).foldl
    (fun st i =>
      let row := flmRow a b blo bhi i st.1
      (row, flmBest row bhi i st.2))
    ((fun _ => 0, (alo, blo, 0)) : (ℕ → ℕ) × (ℕ × ℕ × ℕ))).2

/-- Total size of the matching blocks of a[alo : ahi] vs b[blo : bhi]:
the longest block plus the blocks of the pieces left and right of it.
The fuel bounds the recursion depth; (|a| + |b| + 1) always suffices
because each recursive call strictly shrinks the combined span. -/
def matchingTotalAux (a b : List Char) : ℕ → ℕ → ℕ → ℕ → ℕ → ℕ
  | 0, _, _, _, _ => 0
  | fuel + 1, alo, ahi, blo, bhi =>
    match findLongestMatch a b alo ahi blo bhi with
    | (i, j, k) =>
      if k = 0 then 0
      else k + matchingTotalAux a b fuel alo i blo j +
        matchingTotalAux a b fuel (i + k) ahi (j + k) bhi

def matchingTotal (a b : List Char) : ℕ :=
  matchingTotalAux a b (a.length + b.length + 1) 0 a.length 0 b.length

/-- SequenceMatcher(a, b).ratio() = 2·M / (|a| + |b|) as an exact fraction
(numerator, denominator); (1, 1) on two empty sequences, as
calculate_ratio returns 1.0 there.  The float ratios of the source are
modelled by exact fractions compared by cross-multiplication. -/
def ratioFrac (a b : List Char) : ℕ × ℕ :=
  if a.length + b.length = 0 then (1, 1)
  else (2 * matchingTotal a b, a.length + b.length)

/-- ratio ≥ the default cutoff 0.6 = 3/5. -/
def cutoffOk (p : ℕ × ℕ) : Bool := 3 * p.2 ≤ 5 * p.1

def fracLtB (p q : ℕ × ℕ) : Bool := p.1 * q.2 < q.1 * p.2

def fracEqB (p q : ℕ × ℕ) : Bool := p.1 * q.2 == q.1 * p.2

/-- difflib.get_close_matches(word, possibilities, n=1, cutoff=0.6):
score every possibility x by the ratio of x against word, keep the
candidates with ratio ≥ 3/5 (the quick-ratio prefilters are upper bounds
of ratio, so they reject nothing ratio accepts), and return the single
largest under the (ratio, string) tuple order — Python's nlargest(1) on
(score, x) pairs, where a ratio tie is broken towards the
lexicographically larger string. -/
def getCloseMatches1 (word : String) (possibilities : List String) : List String :=
  let scored := possibilities.filterMap (fun x =>
    let r := ratioFrac x.data word.data
    if cutoffOk r = true then some (r, x) else none)
  match scored with
  | [] => []
  | s :: rest =>
    [(rest.foldl (fun best p =>
        if fracLtB best.1 p.1 = true ∨ (fracEqB best.1 p.1 = true ∧ best.2 < p.2) then p
        else best) s).2]

/-! ## The engine suggestion (lines 136–148 of the source) -/

/-- The engine fallback block: suggest is the top-1 close match of the
decoded Displacement when the VIN path is active and Displacement is
non-empty; otherwise (elif) the top-1 close match of Engine Model when the
VIN path is active and Engine Model is non-empty; otherwise empty.  The
engine is the suggestion when one exists and the manual selectbox choice
otherwise. -/
def engineSuggest (useVin : Bool) (disp engMod : String) (elist : List String) :
    List String :=
  if useVin = true ∧ disp ≠ "" then getCloseMatches1 disp elist
  else if useVin = true ∧ engMod ≠ "" then getCloseMatches1 engMod elist
  else []

def engineResolution (useVin : Bool) (disp engMod : String) (elist : List String)
    (manual : String) : String :=
  (engineSuggest useVin disp engMod elist).headD manual

/-! ## Claim C3: EngineModel is not a fallback for a failed Displacement match -/

/-- C3 counterexample: with the VIN path active, Displacement "XY" matches
nothing in the option list ["ABCD"], while Engine Model "ABCD" would match
"ABCD" exactly — yet the program keeps the manual choice: because of the
elif, Engine Model is consulted only when Displacement is empty, not when
its match fails. -/
theorem c3_engmod_not_tried_counterexample :
    getCloseMatches1 "XY" ["ABCD"] = [] ∧
    getCloseMatches1 "ABCD" ["ABCD"] = ["ABCD"] ∧
    engineResolution true "XY" "ABCD" ["ABCD"] "MANUAL" = "MANUAL" ∧
    engineResolution true "XY" "ABCD" ["ABCD"] "MANUAL" ≠ "ABCD" := by
  refine ⟨by decide, by decide, by decide, by decide⟩

/-- C3 (amended): when a successful decode supplies a non-empty
Displacement, the Engine Code is the top-1 fuzzy match of Displacement
against the option list, falling back to the manual selection when that
match is empty — EngineModel is fuzzy-matched only when Displacement is
empty; and with no successful decode the Engine Code is always the manual
selection. -/
theorem c3_engine_resolution (useVin : Bool) (disp engMod : String)
    (elist : List String) (manual : String) :
    (useVin = false → engineResolution useVin disp engMod elist manual = manual)
    ∧ (disp ≠ "" →
        engineResolution true disp engMod elist manual =
          (getCloseMatches1 disp elist).headD manual)
    ∧ (disp = "" → engMod ≠ "" →
        engineResolution true disp engMod elist manual =
          (getCloseMatches1 engMod elist).headD manual)
    ∧ (disp = "" → engMod = "" →
        engineResolution true disp engMod elist manual = manual) := by
  refine ⟨?_, ?_, ?_, ?_⟩
  · rintro rfl
    rw [engineResolution, engineSuggest]
    simp
  · intro hd
    rw [engineResolution, engineSuggest, if_pos (And.intro rfl hd)]
  · rintro rfl hm
    rw [engineResolution, engineSuggest]
    rw [if_neg (fun hc => hc.2 rfl), if_pos (And.intro rfl hm)]
  · rintro rfl rfl
    rw [engineResolution, engineSuggest]
    simp

/-- C3 witness: on concrete inputs, a matching Displacement "ABCD" is used
(top-1 match), and with the VIN path inactive the manual selection "M"
survives. -/
theorem c3_engine_resolution_witness :
    engineResolution true "ABCD" "" ["ABCD"] "M" =
      (getCloseMatches1 "ABCD" ["ABCD"]).headD "M" ∧
    engineResolution false "ABCD" "" ["ABCD"] "M" = "M" :=
  ⟨(c3_engine_resolution true "ABCD" "" ["ABCD"] "M").2.1 (by decide),
   (c3_engine_resolution false "ABCD" "" ["ABCD"] "M").1 rfl⟩

/-! ## Valuation (predict_value)

The trained pipeline is opaque: a function from a feature record to a
log-scale prediction.  predict_value builds the one-row frame from the
feature dict (a field-for-field projection, an identity in this typed
embedding, with the categorical fields already strings) and returns
exp of the prediction. -/

structure FeatureRecord where
  Year : ℤ
  Make : String
  Model : String
  Series : String
  EngineCode : String
  Grade : ℚ
  Mileage : ℤ
  Drivable : String
  Region : String
  Color : String
  Roof : String
  Interior : String
  sale_month : ℤ
  age : ℤ
deriving DecidableEq

structure Pipeline where
  predict : FeatureRecord → ℝ

noncomputable def predict_value (pipeline : Pipeline) (feat : FeatureRecord) : ℝ :=
  Real.exp (pipeline.predict feat)

/-- expm1, the other inverse transform historical revisions used. -/
noncomputable def expm1Transform (x : ℝ) : ℝ := Real.exp x - 1

/-! ## Claim C5: the inverse transform is exp, not expm1 -/

/-- C5: for every pipeline and feature record, the estimate equals exp of
the pipeline's log-scale prediction, and it never equals the expm1
transform of that prediction (the two differ by exactly 1 everywhere). -/
theorem c5_estimate_is_exp (pipeline : Pipeline) (feat : FeatureRecord) :
    predict_value pipeline feat = Real.exp (pipeline.predict feat) ∧
    predict_value pipeline feat ≠ expm1Transform (pipeline.predict feat) := by
  refine ⟨rfl, ?_⟩
  rw [predict_value, expm1Transform]
  intro h
  have h1 : (0 : ℝ) = -1 := by linarith
  norm_num at h1

/-! ## Claim C8: memoized estimates

Modelled from the spec: the st.cache_data decorator on predict_value
memoizes the call on the non-underscore arguments — the pipeline is passed
as _pipeline and is excluded from the key, so the cache is keyed by the
feature dict alone.  A session is a cache of (features, value) entries
plus a count of underlying pipeline invocations; a hit returns the cached
value without running the body. -/

structure SessionState where
  cache : List (FeatureRecord × ℝ)
  pipelineCalls : ℕ

def cacheLookup (feat : FeatureRecord) : List (FeatureRecord × ℝ) → Option ℝ
  | [] => none
  | (k, v) :: rest => if k = feat then some v else cacheLookup feat rest

/-- One estimate call through the cache: a hit serves the stored value and
leaves the state unchanged; a miss runs predict_value, stores the result
under the full feature tuple and counts one pipeline invocation. -/
noncomputable def callPredict (pipeline : Pipeline) (feat : FeatureRecord)
    (s : SessionState) : ℝ × SessionState :=
  match cacheLookup feat s.cache with
  | some v => (v, s)
  | none =>
    ((predict_value pipeline feat),
     { cache := (feat, predict_value pipeline feat) :: s.cache
       pipelineCalls := s.pipelineCalls + 1 })

/-- C8: within one session, two estimate calls with identical feature
records return the identical value, and the second call does not invoke
the pipeline again — whatever the cache held beforehand. -/
theorem c8_second_call_cached (pipeline : Pipeline) (feat : FeatureRecord)
    (s : SessionState) :
    (callPredict pipeline feat ((callPredict pipeline feat s).2)).1 =
      (callPredict pipeline feat s).1 ∧
    ((callPredict pipeline feat ((callPredict pipeline feat s).2)).2).pipelineCalls =
      ((callPredict pipeline feat s).2).pipelineCalls := by
  match h : cacheLookup feat s.cache with
  | some v =>
    have h1 : callPredict pipeline feat s = (v, s) := by rw [callPredict, h]
    rw [h1, callPredict, h]
    exact ⟨rfl, rfl⟩
  | none =>
    have h1 : callPredict pipeline feat s =
        ((predict_value pipeline feat),
         { cache := (feat, predict_value pipeline feat) :: s.cache
           pipelineCalls := s.pipelineCalls + 1 }) := by
      rw [callPredict, h]
    have h2 : cacheLookup feat
        ((feat, predict_value pipeline feat) :: s.cache) =
        some (predict_value pipeline feat) := by
      rw [cacheLookup]
      simp
    rw [h1, callPredict]
    simp only [h2]
    exact ⟨trivial, trivial⟩

end CarolinaEval
